import Mathlib

/-!
# Verification of the `iso_currency` table compiler and generated registry

This file shallowly embeds the data-to-code generator of the `iso_currency`
crate (`build.rs`) and the thin runtime facade (`src/lib.rs`).

The generator reads a tab-separated table, one currency per row, and emits a
closed enumeration `Currency` (one variant per retained row) together with an
exhaustive-match implementation of every lookup method.  We model an
enumeration value as an index `Fin data.length` into the list of parsed
records, and each generated method as a Lean function of the record list.

Modelling conventions:
* Rust strings are Lean `String`s; Rust's byte-oriented `str::len` is
  modelled by `rustLen`, which sums UTF-8 byte sizes of the characters.
* Rust panics (`expect`, `panic!`, index out of bounds, failed `parse`) in
  the build script are modelled by `Except.error`; the `unwrap` in the
  runtime `From<Country> for Currency` impl is modelled by an
  `Option`-returning function (`none` = panic).
* `u16` arithmetic (`10_u16.pow`) is modelled on `Nat` with an explicit
  `% 65536` reduction.
* Splitting and numeric parsing are re-implemented structurally over
  `List Char` (faithful to Rust `str::split` / `str::parse::<u16>`), so that
  all definitions evaluate by kernel reduction.
-/

namespace IsoCurrency

/-- UTF-8 byte size of one character, as Rust counts it. -/
def charUtf8Size (c : Char) : Nat :=
  if c.toNat < 0x80 then 1
  else if c.toNat < 0x800 then 2
  else if c.toNat < 0x10000 then 3
  else 4

/-- Rust `str::len`: the number of UTF-8 bytes of the string. -/
def rustLen (s : String) : Nat :=
  (s.data.map charUtf8Size).sum

/-- Rust `str::split` on a character predicate, over a character list:
splits at every separator occurrence, keeping empty pieces. -/
def splitP (p : Char → Bool) : List Char → List (List Char)
  | [] => [[]]
  | c :: rest =>
    let r := splitP p rest
    if p c then [] :: r
    else
      match r with
      | h :: t => (c :: h) :: t
      | [] => [[c]]

/-- Rust `str::split` producing strings. -/
def splitStr (p : Char → Bool) (s : String) : List String :=
  (splitP p s.data).map List.asString

/-- Accumulating loop for decimal parsing: fails on the first
non-digit. -/
def natOfCharsGo : List Char → Nat → Option Nat
  | [], acc => some acc
  | c :: rest, acc =>
    if c.isDigit then natOfCharsGo rest (acc * 10 + (c.toNat - 48)) else none

/-- Numeric value of a decimal digit list; `none` on empty input or any
non-digit, like Rust `str::parse::<u16>` (modulo the range check applied
separately). -/
def natOfChars : List Char → Option Nat
  | [] => none
  | cs => natOfCharsGo cs 0

/-- Rust `str::parse::<u16>` up to the range check: digits only. -/
def parseNat (s : String) : Option Nat :=
  natOfChars s.data

/-- Rust `str::to_uppercase` restricted to what the build script needs. -/
def upperStr (s : String) : String :=
  (s.data.map Char.toUpper).asString

/-- One parsed table row (`struct IsoData` in `build.rs`). -/
structure IsoData where
  alpha3 : String
  numeric : Nat
  name : String
  symbol : String
  used_by : Option (List String)
  subunit_symbol : Option String
  exponent : Option Nat
  is_special : Bool
  is_fund : Bool
  is_superseded : Option String
deriving DecidableEq, Repr

/-- `parse_superseded` from `build.rs`: a flag token starting with
`superseded` must split on parentheses into at least two pieces, the second
being the target code; otherwise the build panics (`expect`). Tokens not
starting with `superseded` yield no supersession. -/
def parse_superseded (flag : String) : Except String (Option String) :=
  if List.isPrefixOf ("superseded".data) flag.data then
    match (splitP (fun c => c == '(' || c == ')') flag.data).get? 1 with
    | some target => Except.ok (some target.asString)
    | none => Except.error ("Invalid format for superseded flag")
  else
    Except.ok none

/-- The loop body of `parse_flags`: sequential mutation of the triple
`(is_special, is_fund, is_superseded)`.  Note the wildcard arm assigns
`is_superseded := parse_superseded flag` for every token that is neither
`special` nor `fund`. -/
def parseFlagsLoop (acc : Bool × Bool × Option String) :
    List String → Except String (Bool × Bool × Option String)
  | [] => Except.ok acc
  | t :: ts =>
    if t == "special" then parseFlagsLoop (true, acc.2.1, acc.2.2) ts
    else if t == "fund" then parseFlagsLoop (acc.1, true, acc.2.2) ts
    else
      match parse_superseded t with
      | Except.error e => Except.error e
      | Except.ok sup => parseFlagsLoop (acc.1, acc.2.1, sup) ts

/-- `parse_flags` applied to an already comma-split token list. -/
def parseFlagsTokens (ts : List String) : Except String (Bool × Bool × Option String) :=
  parseFlagsLoop (false, false, none) ts

/-- `parse_flags` from `build.rs`: split the flags field on commas and fold
the tokens through the match. -/
def parse_flags (flags : String) : Except String (Bool × Bool × Option String) :=
  parseFlagsTokens (splitStr (fun c => c == ',') flags)

/-- Rust slice indexing `columns[i]`: out of bounds panics. -/
def col (cols : List String) (i : Nat) : Except String String :=
  match cols.get? i with
  | some v => Except.ok v
  | none => Except.error ("index out of bounds")

/-- Rust `str::parse::<u16>` with its range check; failure carries the
panic message built in `read_table`. -/
def parseU16 (s : String) (msg : String) : Except String Nat :=
  match parseNat s with
  | some n => if n < 65536 then Except.ok n else Except.error msg
  | none => Except.error msg

/-- The per-line body of `read_table`: split on tabs, parse the flags field
(`columns[7]`, evaluated first), then build the record from the eight
columns.  Any panic becomes an error. -/
def parseLine (line : String) : Except String IsoData :=
  let cols := splitStr (fun c => c == '\t') line
  match col cols 7 with
  | Except.error e => Except.error e
  | Except.ok flagsField =>
    match parse_flags flagsField with
    | Except.error e => Except.error e
    | Except.ok fl =>
      match col cols 0 with
      | Except.error e => Except.error e
      | Except.ok alpha3 =>
        match col cols 1 with
        | Except.error e => Except.error e
        | Except.ok numField =>
          match parseU16 numField ("Could not parse numeric code to u16 for " ++ alpha3) with
          | Except.error e => Except.error e
          | Except.ok numeric =>
            match col cols 2 with
            | Except.error e => Except.error e
            | Except.ok nm =>
              match col cols 3 with
              | Except.error e => Except.error e
              | Except.ok ub =>
                match col cols 4 with
                | Except.error e => Except.error e
                | Except.ok symbol =>
                  match col cols 5 with
                  | Except.error e => Except.error e
                  | Except.ok sub =>
                    match col cols 6 with
                    | Except.error e => Except.error e
                    | Except.ok expField =>
                      let used_by := if ub == "" then none
                        else some (splitStr (fun c => c == ';') ub)
                      let subunit_symbol := if sub == "" then none else some sub
                      let expRes :=
                        if expField == "" then Except.ok none
                        else
                          match parseU16 expField
                              ("Could not parse exponent to u16 for " ++ alpha3) with
                          | Except.error e => Except.error e
                          | Except.ok e => Except.ok (some e)
                      match expRes with
                      | Except.error e => Except.error e
                      | Except.ok exponent =>
                        Except.ok {
                          alpha3 := alpha3, numeric := numeric, name := nm,
                          symbol := symbol, used_by := used_by,
                          subunit_symbol := subunit_symbol, exponent := exponent,
                          is_special := fl.1, is_fund := fl.2.1,
                          is_superseded := fl.2.2 }

/-- Map a fallible function over a list, stopping at the first error —
Rust's `map` + panic semantics inside `read_table`. -/
def mapE (f : α → Except ε β) : List α → Except ε (List β)
  | [] => Except.ok []
  | x :: xs =>
    match f x with
    | Except.error e => Except.error e
    | Except.ok y =>
      match mapE f xs with
      | Except.error e => Except.error e
      | Except.ok ys => Except.ok (y :: ys)

/-- `read_table` from `build.rs`: skip the header line, parse each
remaining line in order; the first panic aborts. -/
def read_table (lines : List String) : Except String (List IsoData) :=
  mapE parseLine (lines.drop 1)

/-- The `retain` step of `main`: keep rows whose (uppercased) code is an
enabled cargo feature, modelled by the selection predicate `sel`. -/
def retained (data : List IsoData) (sel : String → Bool) : List IsoData :=
  data.filter (fun c => sel (upperStr c.alpha3))

/-- `main` from `build.rs` up to file writing: read the table, retain the
selected rows, abort if nothing is left, otherwise the retained record list
is the content from which the registry is generated. -/
def generate (lines : List String) (sel : String → Bool) : Except String (List IsoData) :=
  match read_table lines with
  | Except.error e => Except.error e
  | Except.ok data =>
    if (retained data sel).isEmpty then
      Except.error ("No currency has been enabled for iso_country.")
    else
      Except.ok (retained data sel)

/-- The value pair returned by the generated `symbol` method
(`CurrencySymbol` in `src/lib.rs`). -/
structure CurrencySymbol where
  symbol : String
  subunit_symbol : Option String
deriving DecidableEq, Repr

/-- The `Flag` enum of `src/lib.rs`; the `Superseded` payload is the target
currency, identified here by its code. -/
inductive Flag where
  | Special : Flag
  | Fund : Flag
  | Superseded : String → Flag
deriving DecidableEq, Repr, BEq

/-- The runtime parse-error value (`ParseCurrencyError` in `src/lib.rs`). -/
inductive ParseCurrencyError where
  | mk : ParseCurrencyError
deriving DecidableEq, Repr

/-- Generated `code` method: each variant returns its row's `alpha3`. -/
def codeAt (data : List IsoData) (i : Fin data.length) : String :=
  (data.get i).alpha3

/-- Generated `numeric` method. -/
def numericAt (data : List IsoData) (i : Fin data.length) : Nat :=
  (data.get i).numeric

/-- Generated `name` method. -/
def nameAt (data : List IsoData) (i : Fin data.length) : String :=
  (data.get i).name

/-- Generated `symbol` method. -/
def symbolAt (data : List IsoData) (i : Fin data.length) : CurrencySymbol :=
  { symbol := (data.get i).symbol, subunit_symbol := (data.get i).subunit_symbol }

/-- Generated `used_by` method: the row's territory list (empty when the
field was absent), mapped into the external territory enumeration (modelled
by its ordinal map `env`) and sorted by the territory ordering — the
generated code builds the vec and calls `territories.sort()`. -/
def usedByAt (env : String → Nat) (data : List IsoData) (i : Fin data.length) : List Nat :=
  List.insertionSort (· ≤ ·) (((data.get i).used_by.getD []).map env)

/-- Generated `from_code` method: reject strings whose byte length is not 3,
then try the match arms (one per row, in row order); the first matching arm
wins. -/
def from_code (data : List IsoData) (s : String) : Option (Fin data.length) :=
  if rustLen s ≠ 3 then none
  else (List.finRange data.length).find? (fun i => (data.get i).alpha3 == s)

/-- Generated `from_numeric` method: match arms in row order, first match
wins, wildcard gives `none`. -/
def from_numeric (data : List IsoData) (n : Nat) : Option (Fin data.length) :=
  (List.finRange data.length).find? (fun i => (data.get i).numeric == n)

/-- Generated `exponent` method: rows with an exponent get a `Some` arm,
all other variants fall through to the wildcard `None`. -/
def exponentAt (data : List IsoData) (i : Fin data.length) : Option Nat :=
  (data.get i).exponent

/-- Generated `subunit_fraction` method: `Some(10_u16.pow(e))` for rows with
exponent `e`, wildcard `None`; `u16` overflow is modelled by `% 65536`. -/
def subunitFractionAt (data : List IsoData) (i : Fin data.length) : Option Nat :=
  (data.get i).exponent.map (fun e => (10 ^ e) % 65536)

/-- Generated `is_fund` method (partitioned match arms). -/
def isFundAt (data : List IsoData) (i : Fin data.length) : Bool :=
  (data.get i).is_fund

/-- Generated `is_special` method (partitioned match arms). -/
def isSpecialAt (data : List IsoData) (i : Fin data.length) : Bool :=
  (data.get i).is_special

/-- Generated `is_superseded` method: rows with a supersession target get a
`Some` arm naming the target variant, wildcard `None`. -/
def isSupersededAt (data : List IsoData) (i : Fin data.length) : Option String :=
  (data.get i).is_superseded

/-- Generated `latest` method: the supersession target if any, else the
variant itself — one match arm per row, no recursion. -/
def latestAt (data : List IsoData) (i : Fin data.length) : String :=
  match (data.get i).is_superseded with
  | some v => v
  | none => (data.get i).alpha3

/-- Generated `flags` method (`flags_vec` in `build.rs`): Special, then
Fund, then Superseded, each included when the row carries it. -/
def flagsAt (data : List IsoData) (i : Fin data.length) : List Flag :=
  (if (data.get i).is_special then [Flag.Special] else []) ++
  (if (data.get i).is_fund then [Flag.Fund] else []) ++
  (match (data.get i).is_superseded with
   | some v => [Flag.Superseded v]
   | none => [])

/-- Generated `has_flag` method: membership in the `flags` vec. -/
def hasFlagAt (data : List IsoData) (i : Fin data.length) (f : Flag) : Bool :=
  (flagsAt data i).contains f

/-- The per-country currency list of `build_country_map`: iterating the rows
in table order, each row pushes its code once per occurrence of the country
in its `used_by` list. -/
def countryEntry (data : List IsoData) (c : String) : List (Fin data.length) :=
  (List.finRange data.length).flatMap
    (fun i => List.replicate (((data.get i).used_by.getD []).count c) i)

/-- Generated `from_country` method: one match arm per key of the country
map (`keys` is the map's iteration order, arbitrary for a `HashMap`), the
wildcard arm returns the empty vec. -/
def from_country (data : List IsoData) (keys : List String) (c : String) :
    List (Fin data.length) :=
  if c ∈ keys then countryEntry data c else []

/-- The `From<Country> for Currency` impl of `src/lib.rs`:
`from_country(country).into_iter().find(|c| c.flags().is_empty())`, the
final `unwrap` panic modelled by the `Option` result. -/
def currencyFromCountry (data : List IsoData) (keys : List String) (c : String) :
    Option (Fin data.length) :=
  (from_country data keys c).find? (fun i => (flagsAt data i).isEmpty)

/-- The `FromStr` impl of `src/lib.rs`: delegate to `from_code`, mapping
`None` to the dedicated `ParseCurrencyError` value. -/
def from_str (data : List IsoData) (s : String) :
    Except ParseCurrencyError (Fin data.length) :=
  match from_code data s with
  | some c => Except.ok c
  | none => Except.error ParseCurrencyError.mk

/-- The complete generated registry surface: one field per generated
method. -/
@[ext]
structure Registry (n : Nat) where
  numericF : Fin n → Nat
  nameF : Fin n → String
  codeF : Fin n → String
  usedByF : Fin n → List Nat
  symbolF : Fin n → CurrencySymbol
  fromCodeF : String → Option (Fin n)
  fromNumericF : Nat → Option (Fin n)
  exponentF : Fin n → Option Nat
  subunitFractionF : Fin n → Option Nat
  isFundF : Fin n → Bool
  isSpecialF : Fin n → Bool
  isSupersededF : Fin n → Option String
  latestF : Fin n → String
  flagsF : Fin n → List Flag
  hasFlagF : Fin n → Flag → Bool
  fromCountryF : String → List (Fin n)

/-- One generation run: the registry produced from the record list `data`,
with the country map enumerated in key order `keys` (the run-dependent
`HashMap` iteration order) and the external territory ordering `env`. -/
def registryOf (env : String → Nat) (data : List IsoData) (keys : List String) :
    Registry data.length where
  numericF := numericAt data
  nameF := nameAt data
  codeF := codeAt data
  usedByF := usedByAt env data
  symbolF := symbolAt data
  fromCodeF := from_code data
  fromNumericF := from_numeric data
  exponentF := exponentAt data
  subunitFractionF := subunitFractionAt data
  isFundF := isFundAt data
  isSpecialF := isSpecialAt data
  isSupersededF := isSupersededAt data
  latestF := latestAt data
  flagsF := flagsAt data
  hasFlagF := hasFlagAt data
  fromCountryF := from_country data keys

/-! ### Sample tables used as concrete inputs -/

/-- All cargo features enabled. -/
def selAll : String → Bool := fun _ => true

/-- A sample ordinal map for the external territory enumeration. -/
def envSample : String → Nat := fun s => if s == "US" then 5 else 2

def rowUSD : IsoData :=
  { alpha3 := "USD", numeric := 840, name := "United States dollar",
    symbol := "$", used_by := some ["US", "EC"], subunit_symbol := some "c",
    exponent := some 2, is_special := false, is_fund := false,
    is_superseded := none }

def rowEUR : IsoData :=
  { alpha3 := "EUR", numeric := 978, name := "Euro", symbol := "E",
    used_by := some ["DE", "AT"], subunit_symbol := some "c",
    exponent := some 2, is_special := false, is_fund := false,
    is_superseded := none }

def rowXAU : IsoData :=
  { alpha3 := "XAU", numeric := 959, name := "Gold", symbol := "X",
    used_by := none, subunit_symbol := none, exponent := none,
    is_special := true, is_fund := false, is_superseded := none }

def dataR : List IsoData := [rowUSD, rowEUR, rowXAU]

def idxUSD : Fin dataR.length := ⟨0, by decide⟩
def idxEUR : Fin dataR.length := ⟨1, by decide⟩
def idxXAU : Fin dataR.length := ⟨2, by decide⟩

/-- A hypothetical two-hop supersession chain: VES → VED → XTS. -/
def rowVES : IsoData :=
  { alpha3 := "VES", numeric := 928, name := "Bolivar Soberano", symbol := "B",
    used_by := some ["VE"], subunit_symbol := none, exponent := some 2,
    is_special := false, is_fund := false, is_superseded := some "VED" }

def rowVED : IsoData :=
  { alpha3 := "VED", numeric := 926, name := "Bolivar Digital", symbol := "B",
    used_by := some ["VE"], subunit_symbol := none, exponent := some 2,
    is_special := false, is_fund := false, is_superseded := some "XTS" }

def rowXTS : IsoData :=
  { alpha3 := "XTS", numeric := 963, name := "Testing code", symbol := "X",
    used_by := none, subunit_symbol := none, exponent := none,
    is_special := true, is_fund := false, is_superseded := none }

def chainData : List IsoData := [rowVES, rowVED, rowXTS]

def idxVES : Fin chainData.length := ⟨0, by decide⟩
def idxVED : Fin chainData.length := ⟨1, by decide⟩
def idxXTS : Fin chainData.length := ⟨2, by decide⟩

/-- A fund currency and an unflagged one sharing territory `BO`; territory
`XF` is used only by the fund. -/
def rowBOV : IsoData :=
  { alpha3 := "BOV", numeric := 984, name := "Mvdol", symbol := "B",
    used_by := some ["BO", "XF"], subunit_symbol := none, exponent := some 2,
    is_special := false, is_fund := true, is_superseded := none }

def rowBOB : IsoData :=
  { alpha3 := "BOB", numeric := 68, name := "Boliviano", symbol := "B",
    used_by := some ["BO"], subunit_symbol := none, exponent := some 2,
    is_special := false, is_fund := false, is_superseded := none }

def fundData : List IsoData := [rowBOV, rowBOB]

def idxBOV : Fin fundData.length := ⟨0, by decide⟩
def idxBOB : Fin fundData.length := ⟨1, by decide⟩

/-- Sample header and table lines for the generator. -/
def hdrSample : String := "CODE\tNUM\tNAME\tUSED_BY\tSYMBOL\tSUBUNIT\tEXP\tFLAGS"

def lineAAA : String := "AAA\t1\tA currency\t\t$\t\t2\t"

def lineUSDdup : String := "USD\t840\tUS dollar\tUS\t$\t\t2\t"

def lineDangling : String := "ABC\t5\tAbc\t\t$\t\t2\tsuperseded(ZZZ)"

/-- A table whose two data rows share both their code and their numeric
value. -/
def tblDup : List String := [hdrSample, lineUSDdup, lineUSDdup]

/-- A table with a supersession reference to a code absent from the
table. -/
def tblDangling : List String := [hdrSample, lineDangling]

/-! ### Helper lemmas -/

/-- A successful `find?` splits the list into a prefix on which the
predicate fails, the found element, and a suffix. -/
theorem find?_eq_some_split {α : Type} {p : α → Bool} {l : List α} {a : α}
    (h : l.find? p = some a) :
    ∃ pre post, l = pre ++ a :: post ∧ (∀ x ∈ pre, p x = false) ∧ p a = true := by
  induction l with
  | nil => simp [List.find?] at h
  | cons x xs ih =>
    by_cases hx : p x
    · rw [List.find?_cons_of_pos _ hx] at h
      obtain rfl := Option.some.inj h
      exact ⟨[], xs, rfl, by simp, hx⟩
    · rw [List.find?_cons_of_neg _ hx] at h
      obtain ⟨pre, post, rfl, hpre, hpa⟩ := ih h
      refine ⟨x :: pre, post, rfl, ?_, hpa⟩
      intro y hy
      rcases List.mem_cons.mp hy with rfl | hy
      · simpa using hx
      · exact hpre y hy

/-- Conversely, a list that splits into a failing prefix, a succeeding
element and a suffix makes `find?` return that element. -/
theorem find?_eq_some_of_split {α : Type} {p : α → Bool} {pre post : List α}
    {a : α} (hpre : ∀ x ∈ pre, p x = false) (hpa : p a = true) :
    (pre ++ a :: post).find? p = some a := by
  induction pre with
  | nil => simpa using List.find?_cons_of_pos post hpa
  | cons x xs ih =>
    rw [List.cons_append, List.find?_cons_of_neg]
    · exact ih (fun y hy => hpre y (List.mem_cons_of_mem x hy))
    · simp [hpre x (List.mem_cons_self x xs)]

/-- If the predicate holds at `i` and at no other index, `find?` over
`finRange` returns `i`. -/
theorem find?_finRange_eq_some {n : Nat} {p : Fin n → Bool} {i : Fin n}
    (hi : p i = true) (huniq : ∀ j, p j = true → j = i) :
    (List.finRange n).find? p = some i := by
  have h1 : ((List.finRange n).find? p).isSome = true :=
    List.find?_isSome.mpr ⟨i, List.mem_finRange i, hi⟩
  obtain ⟨j, hj⟩ := Option.isSome_iff_exists.mp h1
  rw [hj, huniq j (List.find?_some hj)]

/-- If mapping `f` over `l` yields a duplicate-free list, `f` is injective
on positions of `l`. -/
theorem nodup_map_get_inj {α β : Type} {l : List α} {f : α → β}
    (h : (l.map f).Nodup) {i j : Fin l.length}
    (hf : f (l.get i) = f (l.get j)) : i = j := by
  have hi : (i : Nat) < (l.map f).length := by simp
  have hj : (j : Nat) < (l.map f).length := by simp
  have hgi : (l.map f).get ⟨i, hi⟩ = f (l.get i) := by
    simp [List.get_eq_getElem, List.getElem_map]
  have hgj : (l.map f).get ⟨j, hj⟩ = f (l.get j) := by
    simp [List.get_eq_getElem, List.getElem_map]
  have h2 := (h.get_inj_iff).mp (by rw [hgi, hgj, hf] :
    (l.map f).get ⟨i, hi⟩ = (l.map f).get ⟨j, hj⟩)
  have h3 : (i : Nat) = (j : Nat) := by simpa using congrArg Fin.val h2
  exact Fin.ext h3

/-! ### Claims -/

/-- C4: for every enumeration value `x`, if `is_superseded x = some y` then
`latest x = y`; if `is_superseded x = none` then `latest x = x`; and
`latest` performs a single hop: even when the successor `y` is itself
superseded by `z`, `latest x` is still `y`, never `z`. -/
theorem C4_latest_single_hop (data : List IsoData) (i : Fin data.length) :
    (∀ y, isSupersededAt data i = some y → latestAt data i = y) ∧
    (isSupersededAt data i = none → latestAt data i = codeAt data i) ∧
    (∀ y z (j : Fin data.length), isSupersededAt data i = some y →
      codeAt data j = y → isSupersededAt data j = some z →
      latestAt data i = y) := by
  refine ⟨?_, ?_, ?_⟩
  · intro y hy
    unfold latestAt
    unfold isSupersededAt at hy
    rw [hy]
  · intro hy
    unfold latestAt codeAt
    unfold isSupersededAt at hy
    rw [hy]
  · intro y z j hy _ _
    unfold latestAt
    unfold isSupersededAt at hy
    rw [hy]

/-- Witness for C4 on the two-hop chain VES → VED → XTS: `latest VES` is
`VED`, not the end of the chain, and the unsuperseded `XTS` maps to
itself. -/
theorem C4_latest_single_hop_witness :
    latestAt chainData idxVES = "VED" ∧ latestAt chainData idxXTS = codeAt chainData idxXTS :=
  ⟨(C4_latest_single_hop chainData idxVES).2.2 "VED" "XTS" idxVED rfl rfl rfl,
   (C4_latest_single_hop chainData idxXTS).2.1 rfl⟩

/-- C5: `subunit_fraction x` is `some` exactly when `exponent x` is `some`,
and when the exponent `e` satisfies the table invariant `10 ^ e < 2 ^ 16`
(u16 arithmetic), `subunit_fraction x` is exactly `10 ^ e`. -/
theorem C5_subunit_fraction (data : List IsoData) (i : Fin data.length) :
    ((subunitFractionAt data i).isSome ↔ (exponentAt data i).isSome) ∧
    (∀ e, exponentAt data i = some e → 10 ^ e < 65536 →
      subunitFractionAt data i = some (10 ^ e)) := by
  constructor
  · unfold subunitFractionAt exponentAt
    cases h : (data.get i).exponent <;> simp [h]
  · intro e he hlt
    unfold subunitFractionAt
    unfold exponentAt at he
    rw [he]
    simp [Nat.mod_eq_of_lt hlt]

/-- Witness for C5 at the EUR row: exponent 2 gives subunit fraction
100. -/
theorem C5_subunit_fraction_witness :
    subunitFractionAt dataR idxEUR = some 100 :=
  (C5_subunit_fraction dataR idxEUR).2 2 rfl (by decide)

/-- C8: `used_by x` is sorted non-decreasingly under the external territory
ordering, and is empty when the row's used-by field is absent. -/
theorem C8_used_by_sorted (env : String → Nat) (data : List IsoData)
    (i : Fin data.length) :
    List.Sorted (· ≤ ·) (usedByAt env data i) ∧
    ((data.get i).used_by = none → usedByAt env data i = []) := by
  constructor
  · exact List.sorted_insertionSort _ _
  · intro h
    unfold usedByAt
    rw [h]
    rfl

/-- Witness for C8: the XAU row has no used-by field and yields the empty
list. -/
theorem C8_used_by_sorted_witness :
    usedByAt envSample dataR idxXAU = [] :=
  (C8_used_by_sorted envSample dataR idxXAU).2 rfl

/-- C10: `from_str` succeeds with `c` exactly when `from_code` returns
`some c`, fails with `ParseCurrencyError` exactly when `from_code` returns
`none`, and `ParseCurrencyError` has a single value. -/
theorem C10_from_str (data : List IsoData) (s : String) :
    (∀ c, from_str data s = Except.ok c ↔ from_code data s = some c) ∧
    (from_str data s = Except.error ParseCurrencyError.mk ↔
      from_code data s = none) ∧
    (∀ e e' : ParseCurrencyError, e = e') := by
  refine ⟨?_, ?_, ?_⟩
  · intro c
    unfold from_str
    cases h : from_code data s <;> simp [h]
  · unfold from_str
    cases h : from_code data s <;> simp [h]
  · intro e e'
    cases e
    cases e'
    rfl

/-- C1: on a table satisfying the validated-registry invariants (codes
unique and three bytes long, numerics unique), every enumeration value
round-trips: `from_code (code x) = some x` and
`from_numeric (numeric x) = some x`. -/
theorem C1_roundtrip (data : List IsoData)
    (hcode : (data.map (fun r => r.alpha3)).Nodup)
    (hlen : ∀ r ∈ data, rustLen r.alpha3 = 3)
    (hnum : (data.map (fun r => r.numeric)).Nodup)
    (i : Fin data.length) :
    from_code data (codeAt data i) = some i ∧
    from_numeric data (numericAt data i) = some i := by
  constructor
  · unfold from_code codeAt
    have h3 : rustLen (data.get i).alpha3 = 3 :=
      hlen _ (List.get_mem data i.1 i.isLt)
    rw [if_neg (fun hne => hne h3)]
    refine find?_finRange_eq_some (by simp) ?_
    intro j hj
    exact nodup_map_get_inj hcode (eq_of_beq hj)
  · unfold from_numeric numericAt
    refine find?_finRange_eq_some (by simp) ?_
    intro j hj
    exact nodup_map_get_inj hnum (eq_of_beq hj)

/-- Witness for C1 at the USD row of the sample table. -/
theorem C1_roundtrip_witness :
    from_code dataR (codeAt dataR idxUSD) = some idxUSD ∧
    from_numeric dataR (numericAt dataR idxUSD) = some idxUSD :=
  C1_roundtrip dataR (by decide) (by decide) (by decide) idxUSD

/-- C7: under the validated-registry invariants, `from_code s` is `none`
whenever the byte length of `s` differs from 3, and returns `some x`
exactly when `s` equals `code x` character for character. -/
theorem C7_from_code_exact (data : List IsoData)
    (hlen : ∀ r ∈ data, rustLen r.alpha3 = 3)
    (hcode : (data.map (fun r => r.alpha3)).Nodup) (s : String) :
    (rustLen s ≠ 3 → from_code data s = none) ∧
    (∀ i : Fin data.length, from_code data s = some i ↔ codeAt data i = s) := by
  constructor
  · intro hs
    unfold from_code
    rw [if_pos hs]
  · intro i
    constructor
    · intro h
      unfold from_code at h
      by_cases hg : rustLen s ≠ 3
      · rw [if_pos hg] at h
        cases h
      · rw [if_neg hg] at h
        have hb := List.find?_some h
        exact eq_of_beq hb
    · intro h
      unfold from_code
      have h3 : rustLen s = 3 := by
        rw [← h]
        exact hlen _ (List.get_mem data i.1 i.isLt)
      rw [if_neg (fun hne => hne h3)]
      refine find?_finRange_eq_some ?_ ?_
      · unfold codeAt at h
        exact beq_iff_eq.mpr h
      · intro j hj
        have hj' : (data.get j).alpha3 = (data.get i).alpha3 := by
          rw [eq_of_beq hj, ← h]
          rfl
        exact nodup_map_get_inj hcode hj'

/-- Witness for C7: the sample registry rejects a two-byte string and
resolves `EUR` to the EUR row. -/
theorem C7_from_code_exact_witness :
    from_code dataR "EU" = none ∧ from_code dataR "EUR" = some idxEUR :=
  ⟨(C7_from_code_exact dataR (by decide) (by decide) "EU").1 (by decide),
   ((C7_from_code_exact dataR (by decide) (by decide) "EUR").2 idxEUR).mpr rfl⟩

/-- C6: the territory-to-default-currency conversion returns `some i`
exactly when `i` is the first currency in `from_country` order whose flags
list is empty, and yields no valid default (`none`, the partial-function
outcome modelling the panic of the `unwrap`) exactly when every currency of
the territory carries at least one flag — no other outcome is possible. -/
theorem C6_country_default (data : List IsoData) (keys : List String) (c : String) :
    (∀ i, currencyFromCountry data keys c = some i ↔
      ∃ pre post, from_country data keys c = pre ++ i :: post ∧
        (∀ j ∈ pre, flagsAt data j ≠ []) ∧ flagsAt data i = []) ∧
    (currencyFromCountry data keys c = none ↔
      ∀ i ∈ from_country data keys c, flagsAt data i ≠ []) := by
  constructor
  · intro i
    constructor
    · intro h
      unfold currencyFromCountry at h
      obtain ⟨pre, post, heq, hpre, hp⟩ := find?_eq_some_split h
      refine ⟨pre, post, heq, ?_, List.isEmpty_iff.mp hp⟩
      intro j hj hempty
      have hfalse := hpre j hj
      rw [hempty] at hfalse
      cases hfalse
    · intro ⟨pre, post, heq, hpre, hp⟩
      unfold currencyFromCountry
      rw [heq]
      refine find?_eq_some_of_split ?_ ?_
      · intro x hx
        have hne := hpre x hx
        cases hc : (flagsAt data x).isEmpty with
        | false => rfl
        | true => exact absurd (List.isEmpty_iff.mp hc) hne
      · rw [hp]
        rfl
  · constructor
    · intro h i hi hflags
      unfold currencyFromCountry at h
      have := List.find?_eq_none.mp h i hi
      rw [hflags] at this
      exact this rfl
    · intro hall
      unfold currencyFromCountry
      refine List.find?_eq_none.mpr ?_
      intro x hx hcontra
      exact hall x hx (List.isEmpty_iff.mp hcontra)

/-- Witness for C6: in the fund sample, territory `BO` resolves to the
unflagged `BOB` (the fund `BOV` earlier in table order is skipped), while
territory `XF`, used only by the fund, has no valid default. -/
theorem C6_country_default_witness :
    currencyFromCountry fundData ["BO", "XF"] "BO" = some idxBOB ∧
    currencyFromCountry fundData ["BO", "XF"] "XF" = none :=
  ⟨((C6_country_default fundData ["BO", "XF"] "BO").1 idxBOB).mpr
      ⟨[idxBOV], [], by decide, by decide, by decide⟩,
   ((C6_country_default fundData ["BO", "XF"] "XF").2).mpr (by decide)⟩

/-- Appending a token that is neither `special` nor `fund` and does not
begin with `superseded` never errors; it keeps the special/fund bits and
overwrites the supersession target with `none` (the wildcard arm
reassigns `is_superseded`). -/
theorem parseFlagsLoop_append_unrec (acc : Bool × Bool × Option String)
    (ts : List String) (t : String)
    (h1 : (t == "special") = false) (h2 : (t == "fund") = false)
    (h3 : List.isPrefixOf ("superseded".data) t.data = false) :
    parseFlagsLoop acc (ts ++ [t]) =
      Except.map (fun r => (r.1, r.2.1, (none : Option String)))
        (parseFlagsLoop acc ts) := by
  induction ts generalizing acc with
  | nil =>
    have hps : parse_superseded t = Except.ok none := by
      unfold parse_superseded
      rw [if_neg (by simp [h3])]
    simp [parseFlagsLoop, h1, h2, hps, Except.map]
  | cons x xs ih =>
    cases hx1 : (x == "special") with
    | true => simp [parseFlagsLoop, hx1, ih]
    | false =>
      cases hx2 : (x == "fund") with
      | true => simp [parseFlagsLoop, hx1, hx2, ih]
      | false =>
        cases hps : parse_superseded x with
        | error e => simp [parseFlagsLoop, hx1, hx2, hps, Except.map]
        | ok sup => simp [parseFlagsLoop, hx1, hx2, hps, ih]

/-- C3 counterexample: the unrecognized token `x` after `superseded(USD)`
is not a no-op — it resets the parsed supersession target, so the parsed
triple differs from the one obtained without the token. -/
theorem C3_counterexample :
    parse_flags "superseded(USD),x" ≠ parse_flags "superseded(USD)" ∧
    parse_flags "superseded(USD),x" = Except.ok (false, false, none) ∧
    parse_flags "superseded(USD)" = Except.ok (false, false, some "USD") := by
  refine ⟨?_, rfl, rfl⟩
  intro h
  have h1 : parse_flags "superseded(USD),x" = Except.ok (false, false, none) := rfl
  have h2 : parse_flags "superseded(USD)" = Except.ok (false, false, some "USD") := rfl
  rw [h1, h2] at h
  simp at h

/-- C3 amended: a flags token other than `special` or `fund` that does not
begin with `superseded` raises no error and leaves `is_special`/`is_fund`
as they would be without it, but overwrites the supersession target with
`none` (discarding any earlier `superseded(...)` token); tokens beginning
with `superseded` that are not well-formed abort the build instead. -/
theorem C3_unrecognized_token (ts : List String) (t : String)
    (h1 : t ≠ "special") (h2 : t ≠ "fund")
    (h3 : List.isPrefixOf ("superseded".data) t.data = false) :
    parseFlagsTokens (ts ++ [t]) =
      Except.map (fun r => (r.1, r.2.1, (none : Option String)))
        (parseFlagsTokens ts) :=
  parseFlagsLoop_append_unrec (false, false, none) ts t
    (beq_eq_false_iff_ne.mpr h1) (beq_eq_false_iff_ne.mpr h2) h3

/-- Witness for the amended C3 at the counterexample's input. -/
theorem C3_unrecognized_token_witness :
    parseFlagsTokens (["superseded(USD)"] ++ ["x"]) =
      Except.map (fun r => (r.1, r.2.1, (none : Option String)))
        (parseFlagsTokens ["superseded(USD)"]) :=
  C3_unrecognized_token ["superseded(USD)"] "x" (by decide) (by decide) (by decide)

/-- `mapE` over an appended list splits into the two runs. -/
theorem mapE_append {α ε β : Type} (f : α → Except ε β) (xs ys : List α) :
    mapE f (xs ++ ys) =
      match mapE f xs with
      | Except.error e => Except.error e
      | Except.ok as =>
        match mapE f ys with
        | Except.error e => Except.error e
        | Except.ok bs => Except.ok (as ++ bs) := by
  induction xs with
  | nil => cases hys : mapE f ys <;> simp [mapE, hys]
  | cons x xs ih =>
    cases hx : f x with
    | error e => simp [mapE, hx]
    | ok y =>
      cases hxs : mapE f xs with
      | error e =>
        have h1 : mapE f (xs ++ ys) = Except.error e := by rw [ih, hxs]
        simp [mapE, hx, h1, hxs]
      | ok zs =>
        cases hys : mapE f ys with
        | error e =>
          have h1 : mapE f (xs ++ ys) = Except.error e := by rw [ih, hxs, hys]
          simp [mapE, hx, h1, hxs, hys]
        | ok ws =>
          have h1 : mapE f (xs ++ ys) = Except.ok (zs ++ ws) := by
            rw [ih, hxs, hys]
          simp [mapE, hx, h1, hxs, hys]

/-- Generation succeeds exactly when every data line parses and the
retained row set is non-empty. -/
theorem generate_isOk_iff {lines : List String} {sel : String → Bool} :
    (generate lines sel).isOk = true ↔
      ∃ ds, read_table lines = Except.ok ds ∧ retained ds sel ≠ [] := by
  cases h : read_table lines with
  | error e =>
    simp [generate, h, Except.isOk, Except.toBool]
  | ok ds =>
    by_cases he : (retained ds sel).isEmpty
    · have hnil : retained ds sel = [] := List.isEmpty_iff.mp he
      simp [generate, h, he, hnil, Except.isOk, Except.toBool]
    · have hne : retained ds sel ≠ [] := fun hc => he (by rw [hc]; rfl)
      simp [generate, h, he, hne, Except.isOk, Except.toBool]

/-- C2 counterexample: a table whose two rows share both code and numeric
value, and a table with a dangling `superseded(ZZZ)` reference, both pass
generation — no abort happens. -/
theorem C2_counterexample :
    (generate tblDup selAll).isOk = true ∧
    (generate tblDangling selAll).isOk = true :=
  ⟨rfl, rfl⟩

/-- C2 amended: generation aborts (with an error, before any registry is
produced) exactly on table parse failures and on an empty retained row
set; duplicate codes, duplicate numerics and dangling supersession
references are not checked — duplicating any existing row never turns a
successful generation into an abort. -/
theorem C2_generation_aborts (sel : String → Bool) :
    (∀ hdr line rest, (generate (hdr :: line :: rest) sel).isOk = true →
      (generate (hdr :: line :: (rest ++ [line])) sel).isOk = true) ∧
    (∀ lines, (read_table lines).isOk = false → (generate lines sel).isOk = false) ∧
    (∀ lines ds, read_table lines = Except.ok ds → retained ds sel = [] →
      (generate lines sel).isOk = false) := by
  refine ⟨?_, ?_, ?_⟩
  · intro hdr line rest hok
    obtain ⟨ds, hds, hne⟩ := generate_isOk_iff.mp hok
    have hds' : mapE parseLine (line :: rest) = Except.ok ds := hds
    cases hl : parseLine line with
    | error e =>
      have hbad : mapE parseLine (line :: rest) = Except.error e := by
        simp [mapE, hl]
      rw [hbad] at hds'
      cases hds'
    | ok d =>
      cases hr : mapE parseLine rest with
      | error e =>
        have hbad : mapE parseLine (line :: rest) = Except.error e := by
          simp [mapE, hl, hr]
        rw [hbad] at hds'
        cases hds'
      | ok ds' =>
        have hgood : mapE parseLine (line :: rest) = Except.ok (d :: ds') := by
          simp [mapE, hl, hr]
        rw [hgood] at hds'
        obtain rfl := (Except.ok.inj hds')
        apply generate_isOk_iff.mpr
        refine ⟨d :: (ds' ++ [d]), ?_, ?_⟩
        · show mapE parseLine (line :: (rest ++ [line])) = _
          have hone : mapE parseLine [line] = Except.ok [d] := by
            simp [mapE, hl]
          have happ : mapE parseLine (rest ++ [line]) = Except.ok (ds' ++ [d]) := by
            rw [mapE_append, hr, hone]
          simp [mapE, hl, happ]
        · have hsplit : retained (d :: (ds' ++ [d])) sel =
              retained (d :: ds') sel ++ retained [d] sel := by
            show List.filter _ ((d :: ds') ++ [d]) = _
            rw [List.filter_append]
            rfl
          rw [hsplit]
          intro hcontra
          rw [List.append_eq_nil] at hcontra
          exact hne hcontra.1
  · intro lines hbad
    cases hb : (generate lines sel).isOk with
    | false => rfl
    | true =>
      obtain ⟨ds, hds, _⟩ := generate_isOk_iff.mp hb
      rw [hds] at hbad
      cases hbad
  · intro lines ds hds hret
    cases hb : (generate lines sel).isOk with
    | false => rfl
    | true =>
      obtain ⟨ds', hds', hne⟩ := generate_isOk_iff.mp hb
      rw [hds] at hds'
      obtain rfl := Except.ok.inj hds'
      exact absurd hret hne

/-- Witness for the amended C2: duplicating the only data row of a table
that generates successfully still generates successfully. -/
theorem C2_generation_aborts_witness :
    (generate [hdrSample, lineAAA, lineAAA] selAll).isOk = true :=
  (C2_generation_aborts selAll).1 hdrSample lineAAA [] rfl

/-- C9: generation is deterministic and idempotent. All generated methods
are pure functions of the record list; the only run-dependent input is the
`HashMap` iteration order of the country map, and any two runs (any two
permutations of the key set) produce exactly the same registry, including
the same `from_country` mapping. -/
theorem C9_deterministic (env : String → Nat) (data : List IsoData)
    (k1 k2 : List String) (h : k1.Perm k2) :
    registryOf env data k1 = registryOf env data k2 := by
  unfold registryOf
  congr 1
  funext c
  unfold from_country
  by_cases hm : c ∈ k1
  · rw [if_pos hm, if_pos (h.mem_iff.mp hm)]
  · rw [if_neg hm, if_neg (fun hx => hm (h.mem_iff.mpr hx))]

/-- Witness for C9: two runs enumerating the sample country map in opposite
key orders produce the same registry. -/
theorem C9_deterministic_witness :
    registryOf envSample dataR ["US", "EC"] = registryOf envSample dataR ["EC", "US"] :=
  C9_deterministic envSample dataR ["US", "EC"] ["EC", "US"]
    (List.Perm.swap "EC" "US" [])

end IsoCurrency
